import Mathlib

/-!
Verification of the RabbitAssets price-monitoring core against its
natural-language specification.

The development shallowly embeds the data model and the operations of the
repository: currency conversion (`src/services/fiat-service.ts`, of which the
repository holds several revisions), the WebSocket reconnect/backoff state of
`BaseExchange` (`src/exchanges/rabbitstocks.ts`) and the historical
`BinanceExchange` reconnect handler, the per-monitor metric computation
(`src/monitor.ts`), the monitor manager's exchange grouping and unsupported
tracking (`src/monitor-manager.ts`), and the numeric parts of the metrics
exporter (`src/metrics.ts`).

Numbers are modelled over `ℚ` (JavaScript numeric arithmetic, exact), string
keyed JavaScript objects as functions `String → Option ℚ` or as association
lists in first-insertion order, and fallible operations with `Except`.
-/

namespace RabbitAssets

/-- PriceData (src/types.ts): the last-known observation for one symbol. -/
structure PriceData where
  symbol : String
  price : ℚ
  timestamp : ℤ
  currency : String
deriving DecidableEq

/-- AssetConfig (src/types.ts, owner-aware revision): one portfolio holding. -/
structure AssetConfig where
  symbol : String
  quantity : ℚ
  exchange : String
  currency : String
  owner : String
deriving DecidableEq

/-- AssetMetrics (src/types.ts, owner-aware revision): one derived entry of a
metrics read. -/
structure AssetMetrics where
  symbol : String
  quantity : ℚ
  currentPrice : ℚ
  value : ℚ
  currency : String
  exchange : String
  owner : String
deriving DecidableEq

/-- The FiatService rate table: a JavaScript object mapping a currency code to
its USD-anchored rate (`FiatRates` in src/services/fiat-service.ts). The
upstream endpoint documents each rate as "USD to target currency rate". -/
def FiatRates : Type := String → Option ℚ

/-- The `Unknown currency: <code>` error thrown by `FiatService.convert`. -/
inductive ConvertError where
  | unknownCurrency (code : String)
deriving DecidableEq

instance {ε α : Type} [DecidableEq ε] [DecidableEq α] : DecidableEq (Except ε α)
  | Except.ok a, Except.ok b =>
      if h : a = b then Decidable.isTrue (by rw [h])
      else Decidable.isFalse (by intro hh; cases hh; exact h rfl)
  | Except.ok _, Except.error _ => Decidable.isFalse (by intro h; cases h)
  | Except.error _, Except.ok _ => Decidable.isFalse (by intro h; cases h)
  | Except.error e, Except.error f =>
      if h : e = f then Decidable.isTrue (by rw [h])
      else Decidable.isFalse (by intro hh; cases hh; exact h rfl)

namespace FiatService

/-- The rate `convert` actually uses for a code: the stored rate when present
and truthy. JavaScript's `if (!rate)` guard treats a stored rate of `0`
exactly like an absent entry. -/
def truthyRate (rates : FiatRates) (code : String) : Option ℚ :=
  match rates code with
  | none => none
  | some r => if r = 0 then none else some r

/-- `FiatService.convert` of the USD-anchored revision (`amount / rates[from]`
to reach USD, then `amount * rates[to]`): identity when the codes are equal,
otherwise divide by the source code's anchor-relative rate (unless the source
is USD) and multiply by the target code's rate (unless the target is USD);
throw `Unknown currency` when a needed rate is absent or falsy. -/
def convert (rates : FiatRates) (amount : ℚ) (fromCurrency toCurrency : String) :
    Except ConvertError ℚ :=
  if fromCurrency = toCurrency then Except.ok amount
  else
    match
      (if fromCurrency = "USD" then Except.ok amount
       else
         match truthyRate rates fromCurrency with
         | none => Except.error (ConvertError.unknownCurrency fromCurrency)
         | some usdRate => Except.ok (amount / usdRate) : Except ConvertError ℚ)
    with
    | Except.error e => Except.error e
    | Except.ok amount1 =>
      if toCurrency = "USD" then Except.ok amount1
      else
        match truthyRate rates toCurrency with
        | none => Except.error (ConvertError.unknownCurrency toCurrency)
        | some targetRate => Except.ok (amount1 * targetRate)

/-- `getRate` delegates to `convert` with amount 1. -/
def getRate (rates : FiatRates) (fromCurrency toCurrency : String) :
    Except ConvertError ℚ :=
  if fromCurrency = toCurrency then Except.ok 1
  else convert rates 1 fromCurrency toCurrency

/-- A code `convert` can use: either the anchor USD (never looked up) or a code
whose stored rate is present and truthy. -/
def hasKnownRate (rates : FiatRates) (code : String) : Prop :=
  code = "USD" ∨ (truthyRate rates code).isSome = true

instance (rates : FiatRates) (code : String) : Decidable (hasKnownRate rates code) := by
  unfold hasKnownRate; infer_instance

end FiatService

namespace FiatServiceV2

/-- `FiatService.convert` of the inverted historical revision, which consumes
the same USD-anchored rate endpoint but multiplies by the source code's rate
and divides by the target code's rate. -/
def convert (rates : FiatRates) (amount : ℚ) (fromCurrency toCurrency : String) :
    Except ConvertError ℚ :=
  if fromCurrency = toCurrency then Except.ok amount
  else
    match
      (if fromCurrency = "USD" then Except.ok amount
       else
         match FiatService.truthyRate rates fromCurrency with
         | none => Except.error (ConvertError.unknownCurrency fromCurrency)
         | some usdRate => Except.ok (amount * usdRate) : Except ConvertError ℚ)
    with
    | Except.error e => Except.error e
    | Except.ok amount1 =>
      if toCurrency = "USD" then Except.ok amount1
      else
        match FiatService.truthyRate rates toCurrency with
        | none => Except.error (ConvertError.unknownCurrency toCurrency)
        | some targetRate => Except.ok (amount1 / targetRate)

end FiatServiceV2

/-- A sample rate table: 1 USD buys 0.9 EUR (the endpoint's "USD to target
currency rate" shape). -/
def sampleRates : FiatRates :=
  fun code => if code = "USD" then some 1 else if code = "EUR" then some (9 / 10) else none

/-- C1: with 1 USD = 0.9 EUR, converting 9 EUR to USD must divide by the EUR
rate and yield 10 USD; the USD-anchored revision does so, while the inverted
historical revision multiplies instead and returns 8.1 on the same table. -/
theorem c1_convert_anchor_direction :
    FiatService.convert sampleRates 9 "EUR" "USD" = Except.ok 10
      ∧ FiatServiceV2.convert sampleRates 9 "EUR" "USD" = Except.ok (81 / 10)
      ∧ FiatService.convert sampleRates 9 "EUR" "USD"
          ≠ FiatServiceV2.convert sampleRates 9 "EUR" "USD" := by
  have h1 : FiatService.convert sampleRates 9 "EUR" "USD" = Except.ok 10 := by
    simp +decide [FiatService.convert, FiatService.truthyRate, sampleRates]
  have h2 : FiatServiceV2.convert sampleRates 9 "EUR" "USD" = Except.ok (81 / 10) := by
    simp +decide [FiatServiceV2.convert, FiatService.truthyRate, sampleRates]
    norm_num
  refine ⟨h1, h2, ?_⟩
  rw [h1, h2]
  intro h
  rw [Except.ok.injEq] at h
  norm_num at h

/-- `WebSocket.readyState` values. -/
inductive WSReadyState where
  | connecting
  | opened
  | closing
  | closed
deriving DecidableEq

/-- The connection-lifecycle fields of `BaseExchange`
(src/exchanges/base-exchange.ts, reconnect/backoff revision): the socket and
its readyState when one exists, the reconnecting latch, whether the watchdog
interval and the reconnect timeout are armed, the backoff in milliseconds, the
last requested symbol set and the last message time. -/
structure BaseExchangeState where
  ws : Option WSReadyState
  reconnecting : Bool
  watchdogInterval : Bool
  reconnectTimeout : Bool
  backoff : ℕ
  currentSymbols : List String
  lastMessageTime : ℤ
deriving DecidableEq

/-- `MAX_BACKOFF = 30000`. -/
def MAX_BACKOFF : ℕ := 30000

/-- `cleanupWebSocket`: clear the watchdog interval and the reconnect timeout,
detach the handlers, close and drop the socket. -/
def cleanupWebSocket (s : BaseExchangeState) : BaseExchangeState :=
  { s with watchdogInterval := false, reconnectTimeout := false, ws := none }

/-- The `onopen` handler: record the message time, release the reconnecting
latch, reset the backoff to 1000 ms and start the watchdog. -/
def onOpen (now : ℤ) (s : BaseExchangeState) : BaseExchangeState :=
  { s with
    lastMessageTime := now
    reconnecting := false
    backoff := 1000
    watchdogInterval := true }

/-- `scheduleReconnect`: a no-op while the reconnecting latch is held;
otherwise take the latch, clean up the socket and arm one reconnect timeout.
The armed timer fires after `backoff` milliseconds (`reconnectDelay`). -/
def scheduleReconnect (s : BaseExchangeState) : BaseExchangeState :=
  if s.reconnecting then s
  else { cleanupWebSocket s with reconnecting := true, reconnectTimeout := true }

/-- The delay of the timer `scheduleReconnect` arms: `this.backoff` read at
scheduling time. -/
def reconnectDelay (s : BaseExchangeState) : ℕ := s.backoff

/-- The reconnect timer's callback once it has launched the attempt: release
the latch and double the backoff, capped at `MAX_BACKOFF`. -/
def afterReconnectFire (s : BaseExchangeState) : BaseExchangeState :=
  { s with reconnecting := false, backoff := min (s.backoff * 2) MAX_BACKOFF }

/-- One failed reconnection cycle: the attempt is scheduled, the timer fires,
and the relaunched connection fails again (the catch handler calls
`scheduleReconnect` on the next cycle). -/
def failureCycle (s : BaseExchangeState) : BaseExchangeState :=
  afterReconnectFire (scheduleReconnect s)

/-- `connectWebSocket`'s synchronous outcome: resolve on the existing session,
or open a fresh socket. -/
inductive ConnectOutcome where
  | resolvedExisting
  | openedNewSocket
deriving DecidableEq

/-- `BaseExchange.connectWebSocket(symbols)`: store the symbols, resolve
immediately when a socket exists in the OPEN or CONNECTING state, and
otherwise clean up any stale socket and open a new one. -/
def connectWebSocket (symbols : List String) (s : BaseExchangeState) :
    ConnectOutcome × BaseExchangeState :=
  let s1 := { s with currentSymbols := symbols }
  match s.ws with
  | some state =>
    if state = WSReadyState.opened ∨ state = WSReadyState.connecting then
      (ConnectOutcome.resolvedExisting, s1)
    else
      (ConnectOutcome.openedNewSocket,
        { cleanupWebSocket s1 with ws := some WSReadyState.connecting })
  | none =>
    (ConnectOutcome.openedNewSocket, { s1 with ws := some WSReadyState.connecting })

/-- The historical `BinanceExchange` reconnect handler's attempt cap:
`maxReconnectAttempts = 5`. -/
def binanceMaxReconnectAttempts : ℕ := 5

/-- `handleReconnection` schedules another attempt only while
`reconnectAttempts < maxReconnectAttempts`; at the cap it logs
"Max reconnection attempts reached" and gives up. -/
def binanceWillAttemptReconnect (reconnectAttempts : ℕ) : Bool :=
  reconnectAttempts < binanceMaxReconnectAttempts

/-- The delay the historical `BinanceExchange.handleReconnection` uses before
its Nth consecutive attempt: `1000 * reconnectAttempts` milliseconds (the
comment next to it says "Exponential backoff"). -/
def binanceReconnectDelay (reconnectAttempts : ℕ) : ℕ := 1000 * reconnectAttempts

theorem scheduleReconnect_backoff (s : BaseExchangeState) :
    (scheduleReconnect s).backoff = s.backoff := by
  unfold scheduleReconnect
  split <;> rfl

theorem failureCycle_backoff (s : BaseExchangeState) :
    (failureCycle s).backoff = min (s.backoff * 2) MAX_BACKOFF := by
  unfold failureCycle afterReconnectFire
  rw [scheduleReconnect_backoff]

/-- C2: in `BaseExchange` the backoff delay before the (n+1)st consecutive
reconnection attempt after a successful open is `min(1000·2^n, 30000)` ms,
`onopen` resets the backoff to 1000 ms, and every failure cycle re-arms a
reconnect timer (no cap); the historical `BinanceExchange.handleReconnection`
instead waits `1000·N` ms before the Nth attempt — 3000 ms instead of the
claimed 4000 ms at N = 3 — and schedules no further attempt once 5 attempts
have been made. -/
theorem c2_backoff_sequence_bug :
    (∀ (now : ℤ) (s : BaseExchangeState) (n : ℕ),
        reconnectDelay (failureCycle^[n] (onOpen now s)) = min (1000 * 2 ^ n) 30000)
    ∧ (∀ (now : ℤ) (s : BaseExchangeState), (onOpen now s).backoff = 1000)
    ∧ (∀ s : BaseExchangeState,
        (scheduleReconnect (afterReconnectFire s)).reconnectTimeout = true)
    ∧ binanceReconnectDelay 3 = 3000
    ∧ min (1000 * 2 ^ (3 - 1)) 30000 = 4000
    ∧ binanceReconnectDelay 3 ≠ min (1000 * 2 ^ (3 - 1)) 30000
    ∧ binanceWillAttemptReconnect 5 = false := by
  refine ⟨?_, fun _ _ => rfl, ?_, by decide, by decide, by decide, by decide⟩
  · intro now s n
    induction n with
    | zero => simp [reconnectDelay, onOpen]
    | succ n ih =>
      rw [Function.iterate_succ_apply']
      show (failureCycle (failureCycle^[n] (onOpen now s))).backoff = _
      rw [failureCycle_backoff]
      unfold reconnectDelay at ih
      rw [ih, pow_succ, ← mul_assoc]
      simp only [MAX_BACKOFF]
      omega
  · intro s
    show (scheduleReconnect { s with
      reconnecting := false, backoff := min (s.backoff * 2) MAX_BACKOFF }).reconnectTimeout = true
    unfold scheduleReconnect
    simp [cleanupWebSocket]

/-- C8: while the socket is OPEN or CONNECTING, `connectWebSocket` resolves
immediately without opening a new session and leaves the socket, the watchdog
interval, the reconnect timeout, the backoff and the reconnecting latch
unchanged. -/
theorem c8_connect_idempotent (symbols : List String) (s : BaseExchangeState)
    (h : s.ws = some WSReadyState.opened ∨ s.ws = some WSReadyState.connecting) :
    (connectWebSocket symbols s).1 = ConnectOutcome.resolvedExisting
      ∧ (connectWebSocket symbols s).2.ws = s.ws
      ∧ (connectWebSocket symbols s).2.watchdogInterval = s.watchdogInterval
      ∧ (connectWebSocket symbols s).2.reconnectTimeout = s.reconnectTimeout
      ∧ (connectWebSocket symbols s).2.backoff = s.backoff
      ∧ (connectWebSocket symbols s).2.reconnecting = s.reconnecting := by
  rcases h with h | h <;>
    simp [connectWebSocket, h]

/-- A concrete connected state for the C8 witness. -/
def connectedState : BaseExchangeState :=
  { ws := some WSReadyState.opened
    reconnecting := false
    watchdogInterval := true
    reconnectTimeout := false
    backoff := 4000
    currentSymbols := ["BTC"]
    lastMessageTime := 17 }

/-- Witness for C8 at a concrete OPEN session. -/
theorem c8_connect_idempotent_witness :
    (connectWebSocket ["BTC", "ETH"] connectedState).1 = ConnectOutcome.resolvedExisting
      ∧ (connectWebSocket ["BTC", "ETH"] connectedState).2.ws = connectedState.ws
      ∧ (connectWebSocket ["BTC", "ETH"] connectedState).2.watchdogInterval
          = connectedState.watchdogInterval
      ∧ (connectWebSocket ["BTC", "ETH"] connectedState).2.reconnectTimeout
          = connectedState.reconnectTimeout
      ∧ (connectWebSocket ["BTC", "ETH"] connectedState).2.backoff = connectedState.backoff
      ∧ (connectWebSocket ["BTC", "ETH"] connectedState).2.reconnecting
          = connectedState.reconnecting :=
  c8_connect_idempotent ["BTC", "ETH"] connectedState (Or.inl rfl)

namespace Monitor

/-- Whether the exchange's price store holds a sample for the asset's symbol
with a strictly positive price (the loop's `priceData && priceData.price > 0`
guard). -/
def hasPositivePrice (getPrice : String → Option PriceData) (asset : AssetConfig) : Bool :=
  match getPrice asset.symbol with
  | some priceData => decide (0 < priceData.price)
  | none => false

/-- The (price, display currency) pair one loop iteration reports: the native
price when the currencies already agree, the converted price in the asset's
configured currency otherwise, and the native price in the price's native
currency when `convert` throws. -/
def convertedPrice (rates : FiatRates) (priceData : PriceData) (asset : AssetConfig) :
    ℚ × String :=
  if priceData.currency = asset.currency then (priceData.price, asset.currency)
  else
    match FiatService.convert rates priceData.price priceData.currency asset.currency with
    | Except.ok price => (price, asset.currency)
    | Except.error _ => (priceData.price, priceData.currency)

/-- The AssetMetrics entry the loop pushes for one asset; meaningful under
`hasPositivePrice` (without a stored sample it fills in a zero price, a case
`getAssetMetrics` filters out). -/
def metricFor (getPrice : String → Option PriceData) (rates : FiatRates)
    (asset : AssetConfig) : AssetMetrics :=
  match getPrice asset.symbol with
  | some priceData =>
    let pc := convertedPrice rates priceData asset
    { symbol := asset.symbol
      quantity := asset.quantity
      currentPrice := pc.1
      value := asset.quantity * pc.1
      currency := pc.2
      exchange := asset.exchange
      owner := asset.owner }
  | none =>
    { symbol := asset.symbol
      quantity := asset.quantity
      currentPrice := 0
      value := asset.quantity * 0
      currency := asset.currency
      exchange := asset.exchange
      owner := asset.owner }

/-- `Monitor.getAssetMetrics` (src/monitor.ts, AssetConfig-list revision; the
same loop is inlined in `MonitorManager.getAssetMetrics` of the direct
revision): walk the configured assets in order, look each symbol up in the
price store, skip assets with no sample or a non-positive price, convert into
the configured display currency with native-currency fallback, and push one
entry with `value = quantity * price`. -/
def getAssetMetrics (getPrice : String → Option PriceData) (rates : FiatRates)
    (assets : List AssetConfig) : List AssetMetrics :=
  assets.filterMap (fun asset =>
    match getPrice asset.symbol with
    | some priceData =>
      if 0 < priceData.price then
        some
          (let pc := convertedPrice rates priceData asset
           { symbol := asset.symbol
             quantity := asset.quantity
             currentPrice := pc.1
             value := asset.quantity * pc.1
             currency := pc.2
             exchange := asset.exchange
             owner := asset.owner })
      else none
    | none => none)

theorem metricFor_value (getPrice : String → Option PriceData) (rates : FiatRates)
    (asset : AssetConfig) :
    (metricFor getPrice rates asset).value
      = (metricFor getPrice rates asset).quantity
          * (metricFor getPrice rates asset).currentPrice := by
  unfold metricFor
  cases getPrice asset.symbol <;> simp

theorem metricFor_fields (getPrice : String → Option PriceData) (rates : FiatRates)
    (asset : AssetConfig) :
    (metricFor getPrice rates asset).symbol = asset.symbol
      ∧ (metricFor getPrice rates asset).quantity = asset.quantity
      ∧ (metricFor getPrice rates asset).exchange = asset.exchange
      ∧ (metricFor getPrice rates asset).owner = asset.owner := by
  unfold metricFor
  cases getPrice asset.symbol <;> simp

theorem getAssetMetrics_eq_map_filter (getPrice : String → Option PriceData)
    (rates : FiatRates) (assets : List AssetConfig) :
    getAssetMetrics getPrice rates assets
      = (assets.filter (fun a => hasPositivePrice getPrice a)).map
          (metricFor getPrice rates) := by
  induction assets with
  | nil => rfl
  | cons a rest ih =>
    simp only [getAssetMetrics, List.filterMap_cons, List.filter_cons] at *
    cases h : getPrice a.symbol with
    | none => simp [hasPositivePrice, h, ih]
    | some priceData =>
      by_cases hpos : 0 < priceData.price
      · simp [hasPositivePrice, h, hpos, metricFor, ih]
      · simp [hasPositivePrice, h, hpos, ih]

end Monitor

/-- C3: a metrics read is exactly one entry, in configuration order, for every
configured asset whose stored sample has a strictly positive price — assets
with no sample or a non-positive price contribute nothing — and every entry
satisfies `value = quantity * currentPrice`. -/
theorem c3_metrics_entries (getPrice : String → Option PriceData) (rates : FiatRates)
    (assets : List AssetConfig) :
    Monitor.getAssetMetrics getPrice rates assets
        = (assets.filter (fun a => Monitor.hasPositivePrice getPrice a)).map
            (Monitor.metricFor getPrice rates)
      ∧ ∀ m ∈ Monitor.getAssetMetrics getPrice rates assets,
          m.value = m.quantity * m.currentPrice := by
  refine ⟨Monitor.getAssetMetrics_eq_map_filter getPrice rates assets, ?_⟩
  intro m hm
  rw [Monitor.getAssetMetrics_eq_map_filter] at hm
  rcases List.mem_map.mp hm with ⟨a, _, rfl⟩
  exact Monitor.metricFor_value getPrice rates a

/-- C4: when an asset's stored price is positive but its configured display
currency differs from the price's native currency and the conversion throws
`Unknown currency`, the asset still gets its entry, reported at the native
price in the native currency, and the entry is part of the (total, never
failing) metrics read. -/
theorem c4_conversion_fallback (getPrice : String → Option PriceData) (rates : FiatRates)
    (assets : List AssetConfig) (a : AssetConfig) (priceData : PriceData) (e : ConvertError)
    (ha : a ∈ assets)
    (hp : getPrice a.symbol = some priceData)
    (hpos : 0 < priceData.price)
    (hne : priceData.currency ≠ a.currency)
    (herr : FiatService.convert rates priceData.price priceData.currency a.currency
        = Except.error e) :
    Monitor.metricFor getPrice rates a =
        { symbol := a.symbol
          quantity := a.quantity
          currentPrice := priceData.price
          value := a.quantity * priceData.price
          currency := priceData.currency
          exchange := a.exchange
          owner := a.owner }
      ∧ Monitor.metricFor getPrice rates a
          ∈ Monitor.getAssetMetrics getPrice rates assets := by
  constructor
  · unfold Monitor.metricFor Monitor.convertedPrice
    rw [hp]
    simp [hne, herr]
  · rw [Monitor.getAssetMetrics_eq_map_filter]
    apply List.mem_map_of_mem
    rw [List.mem_filter]
    refine ⟨ha, ?_⟩
    unfold Monitor.hasPositivePrice
    rw [hp]
    simpa using hpos

/-- Rate table holding only the anchor: every other code is unknown. -/
def usdOnlyRates : FiatRates :=
  fun code => if code = "USD" then some 1 else none

/-- A stored BTC sample quoted in USDT. -/
def btcPrice : PriceData :=
  { symbol := "BTC", price := 50000, timestamp := 0, currency := "USDT" }

/-- A BTC holding configured to display in USD. -/
def btcAsset : AssetConfig :=
  { symbol := "BTC", quantity := 1 / 2, exchange := "binance", currency := "USD",
    owner := "default" }

/-- Price store holding exactly the BTC sample. -/
def btcStore : String → Option PriceData :=
  fun symbol => if symbol = "BTC" then some btcPrice else none

/-- Witness for C4: USDT → USD is unknown on a USD-only table, so the BTC
entry degrades to 50000 USDT and is still part of the read. -/
theorem c4_conversion_fallback_witness :
    Monitor.metricFor btcStore usdOnlyRates btcAsset =
        { symbol := btcAsset.symbol
          quantity := btcAsset.quantity
          currentPrice := btcPrice.price
          value := btcAsset.quantity * btcPrice.price
          currency := btcPrice.currency
          exchange := btcAsset.exchange
          owner := btcAsset.owner }
      ∧ Monitor.metricFor btcStore usdOnlyRates btcAsset
          ∈ Monitor.getAssetMetrics btcStore usdOnlyRates [btcAsset] :=
  c4_conversion_fallback btcStore usdOnlyRates [btcAsset] btcAsset btcPrice
    (ConvertError.unknownCurrency "USDT")
    (List.mem_singleton.mpr rfl)
    rfl
    (by norm_num [btcPrice])
    (by decide)
    (by simp +decide [FiatService.convert, FiatService.truthyRate, usdOnlyRates, btcPrice])

/-- `[...new Set(l)]`: the elements of `l` without duplicates, in
first-occurrence order — also the key order of a JavaScript `Map` built by
insertion. -/
def firstDedup : List String → List String
  | [] => []
  | x :: xs => x :: firstDedup (xs.filter (fun y => decide (y ≠ x)))
termination_by l => l.length
decreasing_by
  simp only [List.length_cons]
  exact Nat.lt_succ_of_le (List.length_filter_le _ _)

theorem mem_firstDedup (l : List String) : ∀ x ∈ l, x ∈ firstDedup l := by
  induction l using firstDedup.induct with
  | case1 =>
    intro x hx
    cases hx
  | case2 y ys ih =>
    intro x hx
    rw [firstDedup]
    rcases List.mem_cons.mp hx with rfl | hmem
    · exact List.mem_cons_self _ _
    · by_cases hxy : x = y
      · subst hxy
        exact List.mem_cons_self _ _
      · exact List.mem_cons_of_mem _
          (ih x (List.mem_filter.mpr ⟨hmem, by simpa using hxy⟩))

/-- The static exchange registry's keys (src/monitor-manager.ts,
monitor-supervising revision): `EXCHANGE_REGISTRY = {fiat, binance, kraken,
coinbase}`. -/
def EXCHANGE_REGISTRY : List String := ["fiat", "binance", "kraken", "coinbase"]

/-- Group the configured assets by exchange identifier: a JavaScript `Map`
keyed in first-occurrence order, each group holding its assets in
configuration order. -/
def groupByExchange (assets : List AssetConfig) : List (String × List AssetConfig) :=
  (firstDedup (assets.map (fun a => a.exchange))).map
    (fun exchangeName =>
      (exchangeName, assets.filter (fun a => decide (a.exchange = exchangeName))))

/-- The monitor-manager state `initialize` builds: one monitor (with its asset
group) per supported exchange, and the flat unsupported asset list. -/
structure ManagerState where
  monitors : List (String × List AssetConfig)
  unsupportedAssets : List AssetConfig

/-- `MonitorManager.initialize`, restricted to its deterministic registry
check: group the assets by exchange, keep one monitor per group whose
exchange has a registry entry, and move each group without one into the
unsupported set. The `try/catch` arms around adapter construction and monitor
start handle runtime exceptions that cannot arise in this embedding. -/
def initManager (assets : List AssetConfig) : ManagerState :=
  { monitors :=
      (groupByExchange assets).filter (fun p => EXCHANGE_REGISTRY.contains p.1)
    unsupportedAssets :=
      ((groupByExchange assets).filter
        (fun p => !(EXCHANGE_REGISTRY.contains p.1))).flatMap (fun p => p.2) }

/-- `MonitorManager.getAssetMetrics`: the concatenation of every live
monitor's read; `prices ex` is exchange `ex`'s price store. -/
def managerAssetMetrics (prices : String → String → Option PriceData) (rates : FiatRates)
    (st : ManagerState) : List AssetMetrics :=
  st.monitors.flatMap (fun p => Monitor.getAssetMetrics (prices p.1) rates p.2)

/-- The `unsupported` section of `MonitorManager.getStatus`. -/
structure UnsupportedStatus where
  exchanges : List String
  assetCount : ℕ
  assets : List String

/-- `getStatus().unsupported`: the distinct unsupported exchanges, the asset
count and the asset symbols. -/
def getStatusUnsupported (st : ManagerState) : UnsupportedStatus :=
  { exchanges := firstDedup (st.unsupportedAssets.map (fun a => a.exchange))
    assetCount := st.unsupportedAssets.length
    assets := st.unsupportedAssets.map (fun a => a.symbol) }

theorem group_of_mem (assets : List AssetConfig) (b : AssetConfig) (hb : b ∈ assets) :
    (b.exchange, assets.filter (fun c => decide (c.exchange = b.exchange)))
      ∈ groupByExchange assets := by
  unfold groupByExchange
  exact List.mem_map_of_mem _ (mem_firstDedup _ _ (List.mem_map_of_mem _ hb))

/-- C5: an asset whose exchange identifier has no registry entry lands in the
unsupported set, its symbol shows under the status output's unsupported
section, no metrics entry ever carries its exchange, and every asset of a
registered exchange still gets a monitor containing it. -/
theorem c5_unsupported_excluded (prices : String → String → Option PriceData)
    (rates : FiatRates) (assets : List AssetConfig) (a : AssetConfig)
    (ha : a ∈ assets) (hu : EXCHANGE_REGISTRY.contains a.exchange = false) :
    a ∈ (initManager assets).unsupportedAssets
      ∧ a.symbol ∈ (getStatusUnsupported (initManager assets)).assets
      ∧ (∀ m ∈ managerAssetMetrics prices rates (initManager assets),
          m.exchange ≠ a.exchange)
      ∧ (∀ b ∈ assets, EXCHANGE_REGISTRY.contains b.exchange = true →
          ∃ p ∈ (initManager assets).monitors, p.1 = b.exchange ∧ b ∈ p.2) := by
  have hmem1 : a ∈ (initManager assets).unsupportedAssets := by
    unfold initManager
    apply List.mem_flatMap.mpr
    refine ⟨(a.exchange, assets.filter (fun c => decide (c.exchange = a.exchange))), ?_, ?_⟩
    · exact List.mem_filter.mpr ⟨group_of_mem assets a ha, by rw [hu]; rfl⟩
    · exact List.mem_filter.mpr ⟨ha, by simp⟩
  refine ⟨hmem1, List.mem_map_of_mem _ hmem1, ?_, ?_⟩
  · intro m hm
    obtain ⟨p, hp, hmm⟩ := List.mem_flatMap.mp hm
    obtain ⟨hpg, hpc⟩ := List.mem_filter.mp hp
    obtain ⟨ex, _, rfl⟩ := List.mem_map.mp hpg
    rw [Monitor.getAssetMetrics_eq_map_filter] at hmm
    obtain ⟨b, hbf, rfl⟩ := List.mem_map.mp hmm
    have hbex : b.exchange = ex := by
      have := (List.mem_filter.mp (List.mem_filter.mp hbf).1).2
      simpa using this
    rw [(Monitor.metricFor_fields _ _ _).2.2.1, hbex]
    intro hcontra
    rw [hcontra] at hpc
    simp only at hpc
    rw [hu] at hpc
    cases hpc
  · intro b hb hbc
    refine ⟨(b.exchange, assets.filter (fun c => decide (c.exchange = b.exchange))), ?_, rfl, ?_⟩
    · exact List.mem_filter.mpr ⟨group_of_mem assets b hb, hbc⟩
    · exact List.mem_filter.mpr ⟨hb, by simp⟩

/-- An asset on an exchange identifier absent from the registry. -/
def unknownExAsset : AssetConfig :=
  { symbol := "GME", quantity := 4, exchange := "unknown-ex", currency := "USD",
    owner := "default" }

/-- Witness for C5: with one `unknown-ex` asset and one binance asset, the
former is tracked as unsupported while the latter keeps its monitor. -/
theorem c5_unsupported_excluded_witness :
    unknownExAsset ∈ (initManager [unknownExAsset, btcAsset]).unsupportedAssets
      ∧ unknownExAsset.symbol
          ∈ (getStatusUnsupported (initManager [unknownExAsset, btcAsset])).assets
      ∧ (∀ m ∈ managerAssetMetrics (fun _ _ => none) usdOnlyRates
            (initManager [unknownExAsset, btcAsset]),
          m.exchange ≠ unknownExAsset.exchange)
      ∧ (∀ b ∈ [unknownExAsset, btcAsset], EXCHANGE_REGISTRY.contains b.exchange = true →
          ∃ p ∈ (initManager [unknownExAsset, btcAsset]).monitors,
            p.1 = b.exchange ∧ b ∈ p.2) :=
  c5_unsupported_excluded (fun _ _ => none) usdOnlyRates [unknownExAsset, btcAsset]
    unknownExAsset (List.mem_cons_self _ _) (by decide)

/-- JavaScript object assignment `acc[key] = value` on a `Record<string,
number>` held as an insertion-ordered association list: replace the value in
place when the key exists, append otherwise. -/
def setKey (acc : List (String × ℚ)) (key : String) (value : ℚ) : List (String × ℚ) :=
  if acc.any (fun p => decide (p.1 = key)) then
    acc.map (fun p => if p.1 = key then (key, value) else p)
  else acc ++ [(key, value)]

/-- The `assetsMap` reduce in `MonitorManager.createExchangeMonitor`:
`acc[asset.symbol] = asset.quantity` over the exchange's asset group. -/
def assetsMapReduce (assets : List AssetConfig) : List (String × ℚ) :=
  assets.foldl (fun acc asset => setKey acc asset.symbol asset.quantity) []

/-- The README's BTC holding of owner `default` (0.043212 BTC on binance). -/
def btcDefaultHolding : AssetConfig :=
  { symbol := "BTC", quantity := 43212 / 1000000, exchange := "binance",
    currency := "USDT", owner := "default" }

/-- The README's BTC holding of owner `ziga` (0.0003167 BTC on binance). -/
def btcZigaHolding : AssetConfig :=
  { symbol := "BTC", quantity := 3167 / 10000000, exchange := "binance",
    currency := "USDT", owner := "ziga" }

/-- A binance price store quoting BTC at 50000 USDT. -/
def usdtPriceStore : String → Option PriceData :=
  fun symbol =>
    if symbol = "BTC" then
      some { symbol := "BTC", price := 50000, timestamp := 0, currency := "USDT" }
    else none

/-- C7: on two holdings sharing a symbol on one exchange, the `assetsMap`
reduce keeps a single entry holding only the later quantity — the earlier
holding's distinct contribution is overwritten, not summed — while the
AssetConfig-list revision of the monitor read keeps one entry per holding
with each configured quantity. -/
theorem c7_assets_map_overwrite_bug :
    assetsMapReduce [btcDefaultHolding, btcZigaHolding] = [("BTC", btcZigaHolding.quantity)]
      ∧ btcDefaultHolding.quantity ≠ btcZigaHolding.quantity
      ∧ (Monitor.getAssetMetrics usdtPriceStore usdOnlyRates
            [btcDefaultHolding, btcZigaHolding]).map (fun m => (m.owner, m.quantity))
          = [("default", btcDefaultHolding.quantity), ("ziga", btcZigaHolding.quantity)] := by
  refine ⟨?_, ?_, ?_⟩
  · simp +decide [assetsMapReduce, setKey, btcDefaultHolding, btcZigaHolding]
  · norm_num [btcDefaultHolding, btcZigaHolding]
  · simp +decide [Monitor.getAssetMetrics, Monitor.convertedPrice, usdtPriceStore,
      btcDefaultHolding, btcZigaHolding]

/-- `ownerMetrics.reduce((sum, metric) => sum + metric.value, 0)`
(src/metrics.ts): one owner group's total portfolio value. -/
def ownerTotalValue (ownerMetrics : List AssetMetrics) : ℚ :=
  ownerMetrics.foldl (fun sum m => sum + m.value) 0

/-- `metricsByOwner` (src/metrics.ts): group the entries by owner, keyed in
first-seen owner order, each group in input order. -/
def metricsByOwner (metrics : List AssetMetrics) : List (String × List AssetMetrics) :=
  (firstDedup (metrics.map (fun m => m.owner))).map
    (fun owner => (owner, metrics.filter (fun m => decide (m.owner = owner))))

/-- `EXCHANGE_TYPE_MAPPING` (src/metrics.ts). -/
def EXCHANGE_TYPE_MAPPING : List (String × String) :=
  [("fiat", "fiat"), ("metal", "metal"), ("crypto", "crypto"), ("stock", "stock")]

/-- `EXCHANGE_TYPE_MAPPING[metric.exchange] || "other"`. -/
def assetTypeOf (exchangeName : String) : String :=
  match EXCHANGE_TYPE_MAPPING.lookup exchangeName with
  | some assetType => assetType
  | none => "other"

/-- Accumulate `acc[key] += value` on an insertion-ordered JavaScript record,
creating the key at the end on first sight. -/
def recordAdd {α : Type} [DecidableEq α] (acc : List (α × ℚ)) (key : α) (value : ℚ) :
    List (α × ℚ) :=
  if acc.any (fun p => decide (p.1 = key)) then
    acc.map (fun p => if p.1 = key then (p.1, p.2 + value) else p)
  else acc ++ [(key, value)]

/-- The `asset_value_percentage` values emitted for one owner group:
`ownerTotalValue > 0 ? value / ownerTotalValue * 100 : 0` per entry. -/
def assetValuePercentages (ownerMetrics : List AssetMetrics) : List ℚ :=
  ownerMetrics.map (fun m =>
    if 0 < ownerTotalValue ownerMetrics then m.value / ownerTotalValue ownerMetrics * 100
    else 0)

/-- `calculateAssetTypeMetricsForOwner`'s `byType` values: per asset type, the
summed value of the owner's entries of that type. -/
def byTypeValues (ownerMetrics : List AssetMetrics) : List (String × ℚ) :=
  ownerMetrics.foldl (fun acc m => recordAdd acc (assetTypeOf m.exchange) m.value) []

/-- `byType[type].percentage = totalValue > 0 ? value / totalValue * 100 : 0`. -/
def byTypePercentages (ownerMetrics : List AssetMetrics) : List (String × ℚ) :=
  (byTypeValues ownerMetrics).map (fun p =>
    (p.1,
      if 0 < ownerTotalValue ownerMetrics then p.2 / ownerTotalValue ownerMetrics * 100
      else 0))

/-- `byTypeAndCurrency` values: per (asset type, currency), the summed value. -/
def byTypeCurrencyValues (ownerMetrics : List AssetMetrics) :
    List ((String × String) × ℚ) :=
  ownerMetrics.foldl
    (fun acc m => recordAdd acc (assetTypeOf m.exchange, m.currency) m.value) []

/-- The `portfolio_asset_type_percentage` values emitted per (type, currency):
`ownerTotalValue > 0 ? value / ownerTotalValue * 100 : 0`. -/
def typeCurrencyPercentages (ownerMetrics : List AssetMetrics) :
    List ((String × String) × ℚ) :=
  (byTypeCurrencyValues ownerMetrics).map (fun p =>
    (p.1,
      if 0 < ownerTotalValue ownerMetrics then p.2 / ownerTotalValue ownerMetrics * 100
      else 0))

/-- C9: for an owner group whose total value is 0, every emitted
`asset_value_percentage`, type-breakdown percentage and
`portfolio_asset_type_percentage` is exactly 0 — the `> 0` guard short-circuits
every division. -/
theorem c9_zero_denominator_guard (metrics : List AssetMetrics) (owner : String)
    (ownerMetrics : List AssetMetrics)
    (hg : (owner, ownerMetrics) ∈ metricsByOwner metrics)
    (h0 : ownerTotalValue ownerMetrics = 0) :
    (∀ q ∈ assetValuePercentages ownerMetrics, q = 0)
      ∧ (∀ p ∈ byTypePercentages ownerMetrics, p.2 = 0)
      ∧ (∀ p ∈ typeCurrencyPercentages ownerMetrics, p.2 = 0) := by
  have hneg : ¬ 0 < ownerTotalValue ownerMetrics := by
    rw [h0]
    exact lt_irrefl 0
  refine ⟨?_, ?_, ?_⟩
  · intro q hq
    simp only [assetValuePercentages, if_neg hneg] at hq
    rcases List.mem_map.mp hq with ⟨m, _, rfl⟩
    rfl
  · intro p hp
    simp only [byTypePercentages, if_neg hneg] at hp
    rcases List.mem_map.mp hp with ⟨q, _, rfl⟩
    rfl
  · intro p hp
    simp only [typeCurrencyPercentages, if_neg hneg] at hp
    rcases List.mem_map.mp hp with ⟨q, _, rfl⟩
    rfl

/-- A holding worth 5 USD for the C9 witness. -/
def posMetric : AssetMetrics :=
  { symbol := "AAA", quantity := 1, currentPrice := 5, value := 5, currency := "USD",
    exchange := "crypto", owner := "default" }

/-- A short holding worth −5 USD for the C9 witness. -/
def negMetric : AssetMetrics :=
  { symbol := "BBB", quantity := -1, currentPrice := 5, value := -5, currency := "USD",
    exchange := "stock", owner := "default" }

/-- Witness for C9: owner `default` holds +5 and −5, total 0, and every
percentage of the group is 0. -/
theorem c9_zero_denominator_guard_witness :
    (∀ q ∈ assetValuePercentages [posMetric, negMetric], q = 0)
      ∧ (∀ p ∈ byTypePercentages [posMetric, negMetric], p.2 = 0)
      ∧ (∀ p ∈ typeCurrencyPercentages [posMetric, negMetric], p.2 = 0) :=
  c9_zero_denominator_guard [posMetric, negMetric] "default" [posMetric, negMetric]
    (by simp +decide [metricsByOwner, firstDedup, posMetric, negMetric])
    (by norm_num [ownerTotalValue, List.foldl, posMetric, negMetric])

theorem truthyRate_ne_zero {rates : FiatRates} {code : String} {r : ℚ}
    (h : FiatService.truthyRate rates code = some r) : r ≠ 0 := by
  unfold FiatService.truthyRate at h
  split at h
  · cases h
  · split at h
    · cases h
    · rename_i hv
      injection h with h
      subst h
      exact hv

theorem convert_self (rates : FiatRates) (amount : ℚ) (code : String) :
    FiatService.convert rates amount code code = Except.ok amount := by
  unfold FiatService.convert
  rw [if_pos rfl]

theorem convert_from_usd (rates : FiatRates) (amount : ℚ) (toCurrency : String)
    (h : toCurrency ≠ "USD") (rt : ℚ)
    (ht : FiatService.truthyRate rates toCurrency = some rt) :
    FiatService.convert rates amount "USD" toCurrency = Except.ok (amount * rt) := by
  unfold FiatService.convert
  simp [Ne.symm h, h, ht]

theorem convert_to_usd (rates : FiatRates) (amount : ℚ) (fromCurrency : String)
    (h : fromCurrency ≠ "USD") (rf : ℚ)
    (hf : FiatService.truthyRate rates fromCurrency = some rf) :
    FiatService.convert rates amount fromCurrency "USD" = Except.ok (amount / rf) := by
  unfold FiatService.convert
  simp [h, hf]

theorem convert_two_hop (rates : FiatRates) (amount : ℚ) (fromCurrency toCurrency : String)
    (hne : fromCurrency ≠ toCurrency)
    (hfu : fromCurrency ≠ "USD") (htu : toCurrency ≠ "USD") (rf rt : ℚ)
    (hf : FiatService.truthyRate rates fromCurrency = some rf)
    (ht : FiatService.truthyRate rates toCurrency = some rt) :
    FiatService.convert rates amount fromCurrency toCurrency
      = Except.ok (amount / rf * rt) := by
  unfold FiatService.convert
  simp [hne, hfu, htu, hf, ht]

/-- C6: converting an amount from X to Y and back to X through the USD anchor
returns the amount exactly (over `ℚ`), whenever both codes have known rates. -/
theorem c6_round_trip (rates : FiatRates) (amount : ℚ) (X Y : String)
    (hX : FiatService.hasKnownRate rates X) (hY : FiatService.hasKnownRate rates Y) :
    (FiatService.convert rates amount X Y).bind
        (fun amount2 => FiatService.convert rates amount2 Y X) = Except.ok amount := by
  by_cases hXY : X = Y
  · subst hXY
    rw [convert_self]
    exact convert_self rates amount X
  · by_cases hXU : X = "USD"
    · subst hXU
      have hYU : Y ≠ "USD" := fun h => hXY h.symm
      have hYs : (FiatService.truthyRate rates Y).isSome = true := by
        rcases hY with h | h
        · exact absurd h hYU
        · exact h
      obtain ⟨rY, hrY⟩ := Option.isSome_iff_exists.mp hYs
      have hrY0 := truthyRate_ne_zero hrY
      rw [convert_from_usd rates amount Y hYU rY hrY]
      show FiatService.convert rates (amount * rY) Y "USD" = Except.ok amount
      rw [convert_to_usd rates (amount * rY) Y hYU rY hrY,
        mul_div_cancel_right₀ amount hrY0]
    · have hXs : (FiatService.truthyRate rates X).isSome = true := by
        rcases hX with h | h
        · exact absurd h hXU
        · exact h
      obtain ⟨rX, hrX⟩ := Option.isSome_iff_exists.mp hXs
      have hrX0 := truthyRate_ne_zero hrX
      by_cases hYU : Y = "USD"
      · subst hYU
        rw [convert_to_usd rates amount X hXU rX hrX]
        show FiatService.convert rates (amount / rX) "USD" X = Except.ok amount
        rw [convert_from_usd rates (amount / rX) X hXU rX hrX,
          div_mul_cancel₀ amount hrX0]
      · have hYs : (FiatService.truthyRate rates Y).isSome = true := by
          rcases hY with h | h
          · exact absurd h hYU
          · exact h
        obtain ⟨rY, hrY⟩ := Option.isSome_iff_exists.mp hYs
        have hrY0 := truthyRate_ne_zero hrY
        rw [convert_two_hop rates amount X Y hXY hXU hYU rX rY hrX hrY]
        show FiatService.convert rates (amount / rX * rY) Y X = Except.ok amount
        rw [convert_two_hop rates (amount / rX * rY) Y X (fun h => hXY h.symm) hYU hXU
          rY rX hrY hrX, mul_div_cancel_right₀ (amount / rX) hrY0,
          div_mul_cancel₀ amount hrX0]

theorem truthyRate_sample_eur :
    FiatService.truthyRate sampleRates "EUR" = some (9 / 10) := by
  have h9 : ¬(9 / 10 : ℚ) = 0 := by norm_num
  unfold FiatService.truthyRate sampleRates
  simp +decide [h9]

/-- Witness for C6: 7 EUR → USD → EUR on the sample table returns 7. -/
theorem c6_round_trip_witness :
    (FiatService.convert sampleRates 7 "EUR" "USD").bind
        (fun amount2 => FiatService.convert sampleRates amount2 "USD" "EUR")
      = Except.ok 7 :=
  c6_round_trip sampleRates 7 "EUR" "USD"
    (Or.inr (by rw [truthyRate_sample_eur]; rfl))
    (Or.inl rfl)

/-- C10: a stored rate of 0 trips the falsy `!rate` guard exactly like an
absent entry, so `convert` raises `Unknown currency` instead of dividing or
multiplying by it, and every successful conversion is built only from nonzero
rates. -/
theorem c10_zero_rate_guard (rates : FiatRates) (amount : ℚ)
    (fromCurrency toCurrency : String) :
    (fromCurrency ≠ toCurrency → fromCurrency ≠ "USD" →
        rates fromCurrency = some 0 →
        FiatService.convert rates amount fromCurrency toCurrency
          = Except.error (ConvertError.unknownCurrency fromCurrency))
      ∧ (fromCurrency ≠ toCurrency → toCurrency ≠ "USD" →
          rates toCurrency = some 0 →
          FiatService.hasKnownRate rates fromCurrency →
          FiatService.convert rates amount fromCurrency toCurrency
            = Except.error (ConvertError.unknownCurrency toCurrency))
      ∧ (∀ v, FiatService.convert rates amount fromCurrency toCurrency = Except.ok v →
          (fromCurrency = toCurrency ∧ v = amount)
            ∨ ∃ amount1 : ℚ,
                ((fromCurrency = "USD" ∧ amount1 = amount)
                  ∨ ∃ rf, FiatService.truthyRate rates fromCurrency = some rf
                      ∧ rf ≠ 0 ∧ amount1 = amount / rf)
                ∧ ((toCurrency = "USD" ∧ v = amount1)
                  ∨ ∃ rt, FiatService.truthyRate rates toCurrency = some rt
                      ∧ rt ≠ 0 ∧ v = amount1 * rt)) := by
  refine ⟨?_, ?_, ?_⟩
  · intro hne hfu h0
    have hfrom : FiatService.truthyRate rates fromCurrency = none := by
      unfold FiatService.truthyRate
      rw [h0]
      simp
    unfold FiatService.convert
    simp [hne, hfu, hfrom]
  · intro hne htu h0 hk
    have hto : FiatService.truthyRate rates toCurrency = none := by
      unfold FiatService.truthyRate
      rw [h0]
      simp
    by_cases hfu : fromCurrency = "USD"
    · subst hfu
      unfold FiatService.convert
      simp [hne, htu, hto]
    · have hfs : (FiatService.truthyRate rates fromCurrency).isSome = true := by
        rcases hk with h | h
        · exact absurd h hfu
        · exact h
      obtain ⟨rf, hrf⟩ := Option.isSome_iff_exists.mp hfs
      unfold FiatService.convert
      simp [hne, hfu, htu, hrf, hto]
  · intro v hv
    by_cases hne : fromCurrency = toCurrency
    · subst hne
      rw [convert_self] at hv
      injection hv with hv
      exact Or.inl ⟨rfl, hv.symm⟩
    · right
      by_cases hfu : fromCurrency = "USD"
      · subst hfu
        by_cases htu : toCurrency = "USD"
        · exact absurd htu.symm hne
        · rcases ht : FiatService.truthyRate rates toCurrency with _ | rt
          · exfalso
            unfold FiatService.convert at hv
            simp [hne, htu, ht] at hv
          · rw [convert_from_usd rates amount toCurrency htu rt ht] at hv
            injection hv with hv
            exact ⟨amount, Or.inl ⟨rfl, rfl⟩,
              Or.inr ⟨rt, rfl, truthyRate_ne_zero ht, hv.symm⟩⟩
      · rcases hf : FiatService.truthyRate rates fromCurrency with _ | rf
        · exfalso
          unfold FiatService.convert at hv
          simp [hne, hfu, hf] at hv
        · by_cases htu : toCurrency = "USD"
          · subst htu
            rw [convert_to_usd rates amount fromCurrency hfu rf hf] at hv
            injection hv with hv
            exact ⟨amount / rf, Or.inr ⟨rf, rfl, truthyRate_ne_zero hf, rfl⟩,
              Or.inl ⟨rfl, hv.symm⟩⟩
          · rcases ht : FiatService.truthyRate rates toCurrency with _ | rt
            · exfalso
              unfold FiatService.convert at hv
              simp [hne, hfu, htu, hf, ht] at hv
            · rw [convert_two_hop rates amount fromCurrency toCurrency hne hfu htu
                rf rt hf ht] at hv
              injection hv with hv
              exact ⟨amount / rf, Or.inr ⟨rf, rfl, truthyRate_ne_zero hf, rfl⟩,
                Or.inr ⟨rt, rfl, truthyRate_ne_zero ht, hv.symm⟩⟩

/-- A table storing the literal rate 0 for XAU. -/
def zeroRateTable : FiatRates :=
  fun code => if code = "XAU" then some 0 else none

/-- Companion check for C10 at a concrete input: the stored-but-zero XAU rate
raises `Unknown currency: XAU` rather than being divided by. -/
theorem c10_zero_rate_guard_example :
    FiatService.convert zeroRateTable 5 "XAU" "USD"
      = Except.error (ConvertError.unknownCurrency "XAU") :=
  (c10_zero_rate_guard zeroRateTable 5 "XAU" "USD").1 (by decide) (by decide) (by simp [zeroRateTable])

end RabbitAssets
